import Mathlib

/-!
Verification development for the document-enhancement core of docling-serve.

The Python sources under docling_serve/document_enhancement are shallowly
embedded: Python floats are modelled by rationals, Python int() by
truncation toward zero, mutation by explicit state passing, and the external
Unicode character database and OCR models by explicit oracle parameters.
-/

/-- Coordinate system origins, mirroring bbox_utils.CoordOrigin. -/
inductive CoordOrigin where
  | TOPLEFT
  | TOPRIGHT
  | BOTTOMLEFT
  | BOTTOMRIGHT
  | CENTER
deriving DecidableEq, Repr

/-- A bounding box in document units with a declared coordinate origin,
mirroring the docling BoundingBox as used by the enhancement code. -/
structure BoundingBox where
  l : ℚ
  t : ℚ
  r : ℚ
  b : ℚ
  coord_origin : CoordOrigin
deriving DecidableEq, Repr

/-- One provenance record of a document element: a page number and a box.
The coord_origin attribute may be absent on the record, which the code probes
with getattr; absence is modelled by none. -/
structure ProvenanceItem where
  page_no : ℕ
  bbox : BoundingBox
  coord_origin : Option CoordOrigin
deriving DecidableEq, Repr

/-- An integer pixel-space box (x1, y1, x2, y2). -/
abbrev PixBox := ℤ × ℤ × ℤ × ℤ

/-- Python int() applied to a rational: truncation toward zero. -/
def pyInt (q : ℚ) : ℤ := if 0 ≤ q then ⌊q⌋ else ⌈q⌉

/-- Core of BoundingBoxConverter.get_pixel_bbox: convert the four edges of a
document-space box under the given origin to an integer pixel box, exactly as
the arithmetic in bbox_utils.py lines 27-47. -/
def toPixelBBox (l t r b : ℚ) (origin : CoordOrigin) (pdf_w pdf_h : ℚ)
    (img_w img_h : ℤ) : PixBox :=
  let x :=
    if origin = CoordOrigin.TOPLEFT ∨ origin = CoordOrigin.BOTTOMLEFT ∨
        origin = CoordOrigin.CENTER then
      (pyInt (l / pdf_w * img_w), pyInt (r / pdf_w * img_w))
    else
      (pyInt ((pdf_w - r) / pdf_w * img_w), pyInt ((pdf_w - l) / pdf_w * img_w))
  let y :=
    if origin = CoordOrigin.TOPLEFT ∨ origin = CoordOrigin.TOPRIGHT then
      (pyInt (t / pdf_h * img_h), pyInt (b / pdf_h * img_h))
    else if origin = CoordOrigin.BOTTOMLEFT ∨ origin = CoordOrigin.BOTTOMRIGHT then
      (pyInt ((pdf_h - t) / pdf_h * img_h), pyInt ((pdf_h - b) / pdf_h * img_h))
    else
      let cy := pdf_h / 2
      (pyInt ((cy - t) / pdf_h * img_h + img_h / 2),
       pyInt ((cy - b) / pdf_h * img_h + img_h / 2))
  (x.1, y.1, x.2, y.2)

/-- The axis rules exactly as the specification text states them (spec 4.1,
toPixelBBox): X rule by left-like versus right-like origin, then the Y rule by
top, bottom, or center origin, all truncated to integers. Written from the
specification wording, to be compared against toPixelBBox. -/
def specPixelBBox (l t r b : ℚ) (origin : CoordOrigin) (pdfW pdfH : ℚ)
    (imgW imgH : ℤ) : PixBox :=
  let x1 :=
    if origin = CoordOrigin.TOPLEFT ∨ origin = CoordOrigin.BOTTOMLEFT ∨
        origin = CoordOrigin.CENTER then pyInt (l / pdfW * imgW)
    else pyInt ((pdfW - r) / pdfW * imgW)
  let x2 :=
    if origin = CoordOrigin.TOPLEFT ∨ origin = CoordOrigin.BOTTOMLEFT ∨
        origin = CoordOrigin.CENTER then pyInt (r / pdfW * imgW)
    else pyInt ((pdfW - l) / pdfW * imgW)
  let y1 :=
    if origin = CoordOrigin.TOPLEFT ∨ origin = CoordOrigin.TOPRIGHT then
      pyInt (t / pdfH * imgH)
    else if origin = CoordOrigin.BOTTOMLEFT ∨ origin = CoordOrigin.BOTTOMRIGHT then
      pyInt ((pdfH - t) / pdfH * imgH)
    else pyInt ((pdfH / 2 - t) / pdfH * imgH + imgH / 2)
  let y2 :=
    if origin = CoordOrigin.TOPLEFT ∨ origin = CoordOrigin.TOPRIGHT then
      pyInt (b / pdfH * imgH)
    else if origin = CoordOrigin.BOTTOMLEFT ∨ origin = CoordOrigin.BOTTOMRIGHT then
      pyInt ((pdfH - b) / pdfH * imgH)
    else pyInt ((pdfH / 2 - b) / pdfH * imgH + imgH / 2)
  (x1, y1, x2, y2)

/-- BoundingBoxConverter.get_pixel_bbox: extracts the box and origin from the
first provenance record when one exists (defaulting a missing coord_origin
attribute to BOTTOMLEFT), otherwise falls back to the own bbox of the item and its
declared coord_origin, then converts. -/
def get_pixel_bbox (prov : List ProvenanceItem) (item_bbox : BoundingBox)
    (pdf_w pdf_h : ℚ) (img_w img_h : ℤ) : PixBox :=
  match prov with
  | p :: _ =>
      toPixelBBox p.bbox.l p.bbox.t p.bbox.r p.bbox.b
        (p.coord_origin.getD CoordOrigin.BOTTOMLEFT) pdf_w pdf_h img_w img_h
  | [] =>
      toPixelBBox item_bbox.l item_bbox.t item_bbox.r item_bbox.b
        item_bbox.coord_origin pdf_w pdf_h img_w img_h

/-- BoundingBoxConverter.calculate_overlap_ratio: intersection area of the two
pixel boxes divided by the area of the first box, 0 unless that area is
positive. -/
def calculate_overlap_ratio (boxA boxB : PixBox) : ℚ :=
  let xA := max boxA.1 boxB.1
  let yA := max boxA.2.1 boxB.2.1
  let xB := min boxA.2.2.1 boxB.2.2.1
  let yB := min boxA.2.2.2 boxB.2.2.2
  let inter_width := max 0 (xB - xA)
  let inter_height := max 0 (yB - yA)
  let inter_area := inter_width * inter_height
  let area_A := (boxA.2.2.1 - boxA.1) * (boxA.2.2.2 - boxA.2.1)
  if 0 < area_A then (inter_area : ℚ) / (area_A : ℚ) else 0

/-- BoundingBoxConverter.update_cell_bbox needs the table cell shape: row and
column offsets, a text payload, and a bounding box. -/
structure TableCell where
  start_row_offset_idx : ℕ
  start_col_offset_idx : ℕ
  text : String
  bbox : BoundingBox
deriving DecidableEq, Repr

/-- A cell predicted by the external table-structure recognizer: row and
column identifiers and a pixel box relative to the cropped table image. -/
structure SuryaCell where
  row_id : ℕ
  col_id : ℕ
  bbox : ℚ × ℚ × ℚ × ℚ
deriving DecidableEq, Repr

/-- One predicted table: its list of cells. -/
structure SuryaTable where
  cells : List SuryaCell
deriving DecidableEq, Repr

/-- BoundingBoxConverter.update_cell_bbox: offset the predicted cell box by the
top-left pixel corner of the table, map back to document units by the inverse
TOPLEFT formula, shrink each edge inward by the fixed margin 4, and write the
result back with origin TOPLEFT. -/
def update_cell_bbox (cell : TableCell) (surya_cell : SuryaCell)
    (table_bbox : PixBox) (page_dim : ℤ × ℤ) (pdf_w pdf_h : ℚ) : TableCell :=
  let tx1 := table_bbox.1
  let ty1 := table_bbox.2.1
  let img_w := page_dim.1
  let img_h := page_dim.2
  let cx1 := surya_cell.bbox.1
  let cy1 := surya_cell.bbox.2.1
  let cx2 := surya_cell.bbox.2.2.1
  let cy2 := surya_cell.bbox.2.2.2
  let full_px1 := (tx1 : ℚ) + cx1
  let full_py1 := (ty1 : ℚ) + cy1
  let full_px2 := (tx1 : ℚ) + cx2
  let full_py2 := (ty1 : ℚ) + cy2
  let pdf_l := full_px1 / (img_w : ℚ) * pdf_w
  let pdf_t := full_py1 / (img_h : ℚ) * pdf_h
  let pdf_r := full_px2 / (img_w : ℚ) * pdf_w
  let pdf_b := full_py2 / (img_h : ℚ) * pdf_h
  let thr : ℚ := 4
  { cell with
    bbox := { l := pdf_l + thr, t := pdf_t + thr, r := pdf_r - thr,
              b := pdf_b - thr, coord_origin := CoordOrigin.TOPLEFT } }

/-- The naive inverse mapping as the specification words it (spec 4.1,
pixelCellToDocBBox, before the margin step): offset the table-relative cell
box by the top-left pixel corner of the table into full-page pixel space, then
apply the inverse of the TOPLEFT pixel formula. Written from the
specification wording, to be compared against update_cell_bbox. -/
def specNaiveCellDocBox (cellPixelBox : ℚ × ℚ × ℚ × ℚ)
    (tableOriginPixel : ℤ × ℤ) (imgW imgH : ℤ) (pdfW pdfH : ℚ) :
    ℚ × ℚ × ℚ × ℚ :=
  let fx1 := (tableOriginPixel.1 : ℚ) + cellPixelBox.1
  let fy1 := (tableOriginPixel.2 : ℚ) + cellPixelBox.2.1
  let fx2 := (tableOriginPixel.1 : ℚ) + cellPixelBox.2.2.1
  let fy2 := (tableOriginPixel.2 : ℚ) + cellPixelBox.2.2.2
  (fx1 / (imgW : ℚ) * pdfW, fy1 / (imgH : ℚ) * pdfH,
   fx2 / (imgW : ℚ) * pdfW, fy2 / (imgH : ℚ) * pdfH)

/-- Character facts consumed by TextQualityAnalyzer, abstracting the Python
str methods and the unicodedata module (an external database, not repository
code): whether a character is a digit, alphabetic, whitespace, whether its
Unicode name resolves, and whether that name contains the tokens ARABIC,
LATIN, or MATHEMATICAL (false whenever the name does not resolve). -/
structure UnicodeData where
  isDigit : Char → Bool
  isAlpha : Char → Bool
  isSpace : Char → Bool
  hasName : Char → Bool
  nameARABIC : Char → Bool
  nameLATIN : Char → Bool
  nameMATHEMATICAL : Char → Bool

/-- Result dictionary of TextQualityAnalyzer.needs_ocr_enhancement. -/
structure AnalyzerResult where
  encoding : Bool
  formula : Bool
deriving DecidableEq, Repr

/-- The fixed replacement and control characters probed by
TextQualityAnalyzer._has_encoding_issues (the literal list in the source is
U+F09D, U+FFFD, U+F0AB, NUL, SUB, U+FFFD). -/
def error_chars : List Char :=
  ['', '�', '', '\x00', '\x1A', '�']

/-- TextQualityAnalyzer._is_valid_non_ascii: every character above 7-bit
ASCII must have a resolvable Unicode name containing ARABIC, LATIN, or
MATHEMATICAL. -/
def is_valid_non_ascii (u : UnicodeData) (text : String) : Bool :=
  text.data.all fun c =>
    if 127 < c.toNat then
      u.hasName c && (u.nameARABIC c || u.nameLATIN c || u.nameMATHEMATICAL c)
    else true

/-- TextQualityAnalyzer._has_encoding_issues: a known replacement or control
character occurs, or some character above 7-bit ASCII fails the accepted
script check. -/
def has_encoding_issues (u : UnicodeData) (text : String) : Bool :=
  error_chars.any (fun e => text.data.contains e) ||
    (text.data.any (fun c => decide (127 < c.toNat)) &&
      !(is_valid_non_ascii u text))

/-- TextQualityAnalyzer._needs_formula_enhancement: the text has at least one
digit and at least one alphabetic character whose Unicode name contains
LATIN. -/
def needs_formula_enhancement (u : UnicodeData) (text : String) : Bool :=
  text.data.any u.isDigit &&
    text.data.any (fun c => u.isAlpha c && u.nameLATIN c)

/-- TextQualityAnalyzer.needs_ocr_enhancement: blank text yields both flags
false; otherwise each check runs only when its flag is enabled. -/
def needs_ocr_enhancement (u : UnicodeData) (text : String)
    (check_formula check_encoding : Bool) : AnalyzerResult :=
  if text = "" ∨ text.data.all u.isSpace then
    { encoding := false, formula := false }
  else
    { encoding := check_encoding && has_encoding_issues u text,
      formula := check_formula && needs_formula_enhancement u text }

/-- Predicate for latin character ranges of the ASCII block, used by the
concrete character-data fragment below. -/
def latinLetter (c : Char) : Bool :=
  ('a' ≤ c && c ≤ 'z') || ('A' ≤ c && c ≤ 'Z')

/-- The Arabic letters appearing in the concrete sample strings below. -/
def arabicLetters : List Char := ['ن', 'ص', 'ع', 'ر', 'ب', 'ي']

/-- A concrete finite fragment of the Unicode character database, faithful to
the real data on the characters used in the concrete sample strings of this
development: ASCII digits and letters, ASCII punctuation and whitespace, the
Arabic letters of the sample text, and the replacement character. ASCII
control characters such as NUL and SUB have no resolvable Unicode name. -/
def pyU : UnicodeData where
  isDigit := fun c => '0' ≤ c && c ≤ '9'
  isAlpha := fun c => latinLetter c || arabicLetters.contains c
  isSpace := fun c => [' ', '\t', '\n', '\r', '\x0B', '\x0C'].contains c
  hasName := fun c =>
    (0x20 ≤ c.toNat && c.toNat ≤ 0x7E) || arabicLetters.contains c ||
      c = '�'
  nameARABIC := fun c => arabicLetters.contains c
  nameLATIN := latinLetter
  nameMATHEMATICAL := fun _ => false

/-- One recognized text line with its confidence, as returned by the external
recognition model. -/
structure TextLine where
  text : String
  confidence : ℚ
deriving DecidableEq, Repr

/-- One recognition result: the text lines found in one supplied image. -/
structure OCRResult where
  text_lines : List TextLine
deriving DecidableEq, Repr

/-- Pixel dimensions of a decoded page image. -/
structure PageImage where
  width : ℤ
  height : ℤ
deriving DecidableEq, Repr

/-- The data the recognition model call depends on in this embedding: the page
image, the clamped padded crop bounds, and the math-mode flag. The model
itself is an external black box, abstracted as a function of this query. -/
structure RecQuery where
  img : PageImage
  crop : PixBox
  math_mode : Bool

/-- The data the table-structure model call depends on: the page image and the
pixel box of the cropped table region. -/
structure TableQuery where
  img : PageImage
  table_bbox : PixBox

/-- State of OCREnhancer: whether model loading succeeded, plus the two
abstract external predictors. When loading failed the flag stays false and
every later call is expected to be a no-op. -/
structure OCRState where
  models_loaded : Bool
  recognize : RecQuery → List OCRResult
  table_rec : TableQuery → List SuryaTable

/-- The whitespace characters stripped by the Python str.strip call in
OCREnhancer.extract_text_from_region. -/
def pyWhitespace (c : Char) : Bool :=
  [' ', '\t', '\n', '\r', '\x0B', '\x0C'].contains c

/-- Python str.strip with no arguments: remove leading and trailing
whitespace. -/
def pyStrip (s : String) : String :=
  { data := ((s.data.dropWhile pyWhitespace).reverse.dropWhile
      pyWhitespace).reverse }

/-- The crop bounds computed in OCREnhancer.extract_text_from_region: pad the
box by 5 pixels on every side, clamped to the image bounds. -/
def cropRegion (img : PageImage) (bbox : PixBox) : PixBox :=
  (max (bbox.1 - 5) 0, max (bbox.2.1 - 5) 0,
   min (bbox.2.2.1 + 5) img.width, min (bbox.2.2.2 + 5) img.height)

/-- Text lines of the first prediction, empty when the predictor returned
nothing; mirrors the guarded loop over predictions[0].text_lines. -/
def firstPredictionLines (preds : List OCRResult) : List TextLine :=
  match preds with
  | [] => []
  | p :: _ => p.text_lines

/-- OCREnhancer.extract_text_from_region: with models unavailable, return the
original text; otherwise keep the lines of the first prediction whose
confidence exceeds one half, join their texts with single spaces, strip, and
fall back to the original text when the result is empty. -/
def extract_text_from_region (st : OCRState) (image : PageImage)
    (bbox : PixBox) (old_text : String) (math_mode : Bool) : String :=
  if st.models_loaded = false then old_text
  else
    let preds := st.recognize { img := image, crop := cropRegion image bbox,
                                math_mode := math_mode }
    let lines := ((firstPredictionLines preds).filter
        (fun line => decide ((1 : ℚ) / 2 < line.confidence))).map TextLine.text
    let enhanced_text := pyStrip (String.intercalate " " lines)
    if enhanced_text = "" then old_text else enhanced_text

/-- The dictionary built in OCREnhancer.enhance_table_structure keyed by
(row_id, col_id); a Python dict comprehension keeps the last binding, so the
lookup finds the last matching predicted cell. -/
def suryaCellLookup (cells : List SuryaCell) (row col : ℕ) :
    Option SuryaCell :=
  cells.reverse.find? (fun sc => sc.row_id == row && sc.col_id == col)

/-- Structured data of a table element: its list of cells. -/
structure TableData where
  table_cells : List TableCell
deriving DecidableEq, Repr

/-- A table element of the document. -/
structure TableItem where
  prov : List ProvenanceItem
  bbox : BoundingBox
  data : TableData
deriving DecidableEq, Repr

/-- OCREnhancer.enhance_table_structure: with models unavailable or an empty
prediction, leave the table untouched; otherwise rewrite the bbox of every
cell matched by (row, col) through update_cell_bbox. -/
def enhance_table_structure (st : OCRState) (table_image_dim : PageImage)
    (table : TableItem) (table_bbox : PixBox) (pdf_w pdf_h : ℚ) : TableItem :=
  if st.models_loaded = false then table
  else
    match st.table_rec { img := table_image_dim, table_bbox := table_bbox } with
    | [] => table
    | surya_table :: _ =>
        { table with
          data := { table_cells := table.data.table_cells.map fun cell =>
            match (suryaCellLookup surya_table.cells cell.start_row_offset_idx
                cell.start_col_offset_idx) with
            | some surya_cell =>
                update_cell_bbox cell surya_cell table_bbox
                  (table_image_dim.width, table_image_dim.height) pdf_w pdf_h
            | none => cell } }

/-- A free text element of the document. -/
structure TextItem where
  prov : List ProvenanceItem
  bbox : BoundingBox
  text : String
deriving DecidableEq, Repr

/-- A picture, form item, or key-value item: only its geometry matters to the
enhancement workflow. -/
structure NonTextItem where
  prov : List ProvenanceItem
  bbox : BoundingBox
deriving DecidableEq, Repr

/-- Physical page size in document units. -/
structure PageSize where
  width : ℚ
  height : ℚ
deriving DecidableEq, Repr

/-- A page: its size and its decoded raster image; none models a page whose
image cannot be resolved or decoded. -/
structure Page where
  size : PageSize
  image : Option PageImage
deriving DecidableEq, Repr

/-- The document as the enhancement workflow sees it: pages keyed by page
number and the element collections probed by attribute name. -/
structure Document where
  pages : List (ℕ × Page)
  texts : List TextItem
  tables : List TableItem
  pictures : List NonTextItem
  form_items : List NonTextItem
  key_value_items : List NonTextItem
deriving DecidableEq, Repr

/-- The two enhancement flags carried by DocumentEnhancer. -/
structure DocumentEnhancer where
  enable_formula_enhancement : Bool
  enable_character_encoding_fix : Bool
deriving DecidableEq, Repr

/-- DocumentEnhancer._should_enhance_text: run the analyzer with the enabled
options. -/
def should_enhance_text (u : UnicodeData) (en : DocumentEnhancer)
    (text : String) : AnalyzerResult :=
  needs_ocr_enhancement u text en.enable_formula_enhancement
    en.enable_character_encoding_fix

/-- The geometry filter of DocumentEnhancer._collect_non_text_bboxes applied
to one item: its pixel bbox when its first provenance record targets the
page, nothing otherwise. -/
def nonTextBoxOf (page_num : ℕ) (pdf_w pdf_h : ℚ) (img_w img_h : ℤ)
    (prov : List ProvenanceItem) (item_bbox : BoundingBox) : Option PixBox :=
  match prov with
  | p :: _ =>
      if p.page_no = page_num then
        some (get_pixel_bbox prov item_bbox pdf_w pdf_h img_w img_h)
      else none
  | [] => none

/-- DocumentEnhancer._collect_non_text_bboxes: pixel boxes of every picture,
form item, key-value item, and table whose first provenance record targets
this page, in that attribute order. -/
def collect_non_text_bboxes (page_num : ℕ) (pdf_w pdf_h : ℚ)
    (img_w img_h : ℤ) (document : Document) : List PixBox :=
  (document.pictures.filterMap fun it =>
      nonTextBoxOf page_num pdf_w pdf_h img_w img_h it.prov it.bbox) ++
  (document.form_items.filterMap fun it =>
      nonTextBoxOf page_num pdf_w pdf_h img_w img_h it.prov it.bbox) ++
  (document.key_value_items.filterMap fun it =>
      nonTextBoxOf page_num pdf_w pdf_h img_w img_h it.prov it.bbox) ++
  (document.tables.filterMap fun it =>
      nonTextBoxOf page_num pdf_w pdf_h img_w img_h it.prov it.bbox)

/-- The per-cell text step inside DocumentEnhancer._process_tables:
re-recognize the text of a cell the analyzer flags, keeping the old text
unless the recognized text is non-empty and different. -/
def processOneCell (u : UnicodeData) (st : OCRState) (en : DocumentEnhancer)
    (page_image : PageImage) (pdf_w pdf_h : ℚ) (cell : TableCell) :
    TableCell :=
  let res := should_enhance_text u en cell.text
  if res.encoding || res.formula then
    let cell_bbox := get_pixel_bbox [] cell.bbox pdf_w pdf_h
        page_image.width page_image.height
    let enhanced_text := extract_text_from_region st page_image cell_bbox
        cell.text res.formula
    if enhanced_text ≠ "" ∧ enhanced_text ≠ cell.text then
      { cell with text := enhanced_text }
    else cell
  else cell

/-- The per-table body of DocumentEnhancer._process_tables: enhance the table
structure from the cropped region, then apply the per-cell text step to every
cell. -/
def processOneTable (u : UnicodeData) (st : OCRState) (en : DocumentEnhancer)
    (page_image : PageImage) (pdf_w pdf_h : ℚ) (table : TableItem) :
    TableItem :=
  let table_bbox := get_pixel_bbox table.prov table.bbox pdf_w pdf_h
      page_image.width page_image.height
  let t1 := enhance_table_structure st page_image table table_bbox pdf_w pdf_h
  { t1 with
    data := { table_cells :=
      (t1.data.table_cells.map (processOneCell u st en page_image pdf_w pdf_h)) } }

/-- DocumentEnhancer._process_tables: apply the per-table body to every table
whose first provenance record targets this page. -/
def process_tables (u : UnicodeData) (st : OCRState) (en : DocumentEnhancer)
    (page_num : ℕ) (page_image : PageImage) (pdf_w pdf_h : ℚ)
    (document : Document) : Document :=
  { document with
    tables := document.tables.map fun table =>
      match table.prov with
      | [] => table
      | p :: _ =>
          if p.page_no = page_num then
            processOneTable u st en page_image pdf_w pdf_h table
          else table }

/-- The per-element body of DocumentEnhancer._process_text_elements: skip
elements not on this page, skip elements whose pixel box overlaps any
non-text box by more than 0.05, and otherwise re-recognize flagged text,
replacing it only by a non-empty different result. -/
def processOneText (u : UnicodeData) (st : OCRState) (en : DocumentEnhancer)
    (page_num : ℕ) (page_image : PageImage) (pdf_w pdf_h : ℚ)
    (non_text_bboxes : List PixBox) (tx : TextItem) : TextItem :=
  match tx.prov with
  | [] => tx
  | p :: _ =>
      if p.page_no = page_num then
        let text_bbox := get_pixel_bbox tx.prov tx.bbox pdf_w pdf_h
            page_image.width page_image.height
        if non_text_bboxes.any (fun other =>
            decide ((1 : ℚ) / 20 < calculate_overlap_ratio text_bbox other)) then
          tx
        else
          let res := should_enhance_text u en tx.text
          if res.encoding || res.formula then
            let enhanced_text := extract_text_from_region st page_image
                text_bbox tx.text res.formula
            if enhanced_text ≠ "" ∧ enhanced_text ≠ tx.text then
              { tx with text := enhanced_text }
            else tx
          else tx
      else tx

/-- DocumentEnhancer._process_text_elements: apply the per-element body to
every free text element. -/
def process_text_elements (u : UnicodeData) (st : OCRState)
    (en : DocumentEnhancer) (page_num : ℕ) (page_image : PageImage)
    (pdf_w pdf_h : ℚ) (non_text_bboxes : List PixBox) (document : Document) :
    Document :=
  { document with
    texts := document.texts.map
      (processOneText u st en page_num page_image pdf_w pdf_h non_text_bboxes) }

/-- DocumentEnhancer._process_page_elements: collect the occlusion list, then
process tables, then process free text elements. -/
def process_page_elements (u : UnicodeData) (st : OCRState)
    (en : DocumentEnhancer) (page_num : ℕ) (page : Page)
    (page_image : PageImage) (document : Document) : Document :=
  let pdf_w := page.size.width
  let pdf_h := page.size.height
  let non_text_bboxes := collect_non_text_bboxes page_num pdf_w pdf_h
      page_image.width page_image.height document
  let d1 := process_tables u st en page_num page_image pdf_w pdf_h document
  process_text_elements u st en page_num page_image pdf_w pdf_h
    non_text_bboxes d1

/-- DocumentEnhancer.process_conversion_result: an identity transform unless
at least one enhancement flag is enabled; otherwise process every page whose
image resolves, skipping pages without a decodable image. -/
def process_conversion_result (u : UnicodeData) (st : OCRState)
    (en : DocumentEnhancer) (conversion_result : Document) : Document :=
  if !(en.enable_formula_enhancement || en.enable_character_encoding_fix) then
    conversion_result
  else
    conversion_result.pages.foldl
      (fun acc pp =>
        match pp.2.image with
        | none => acc
        | some img => process_page_elements u st en pp.1 pp.2 img acc)
      conversion_result

/-- A stub adapter whose model loading has failed, used by concrete
witnesses. -/
def stubOCR : OCRState where
  models_loaded := false
  recognize := fun _ => []
  table_rec := fun _ => []

/-- Truncation toward zero of an integer-valued rational is the integer.  -/
lemma pyInt_intCast (z : ℤ) : pyInt (z : ℚ) = z := by
  unfold pyInt
  split
  · exact Int.floor_intCast z
  · exact Int.ceil_intCast z

/-- C1: get_pixel_bbox follows the axis rules of the specification for every
origin, and for origin TOPLEFT with matching page and image dimensions the
conversion is the identity on integer-valued boxes. -/
theorem get_pixel_bbox_matches_spec_axis_rules
    (l t r b : ℚ) (origin : CoordOrigin) (pdf_w pdf_h : ℚ) (img_w img_h : ℤ)
    (hw : 0 < pdf_w) (hh : 0 < pdf_h) (hiw : 0 < img_w) (hih : 0 < img_h) :
    get_pixel_bbox []
        { l := l, t := t, r := r, b := b, coord_origin := origin }
        pdf_w pdf_h img_w img_h =
      specPixelBBox l t r b origin pdf_w pdf_h img_w img_h ∧
    (∀ lz tz rz bz w h : ℤ, 0 < w → 0 < h →
      get_pixel_bbox []
          { l := (lz : ℚ), t := (tz : ℚ), r := (rz : ℚ), b := (bz : ℚ),
            coord_origin := CoordOrigin.TOPLEFT }
          (w : ℚ) (h : ℚ) w h = (lz, tz, rz, bz)) := by
  constructor
  · cases origin <;> rfl
  · intro lz tz rz bz w h hw1 hh1
    have hw0 : (w : ℚ) ≠ 0 := Int.cast_ne_zero.mpr (by omega)
    have hh0 : (h : ℚ) ≠ 0 := Int.cast_ne_zero.mpr (by omega)
    show toPixelBBox (lz : ℚ) (tz : ℚ) (rz : ℚ) (bz : ℚ) CoordOrigin.TOPLEFT
        (w : ℚ) (h : ℚ) w h = (lz, tz, rz, bz)
    simp only [toPixelBBox]
    norm_num
    rw [div_mul_cancel₀ _ hw0, div_mul_cancel₀ _ hw0,
        div_mul_cancel₀ _ hh0, div_mul_cancel₀ _ hh0]
    simp [pyInt_intCast]

/-- Concrete instance of the C1 theorem: the mirrored-origin example of the
specification and an identity conversion. -/
theorem get_pixel_bbox_matches_spec_axis_rules_witness :
    get_pixel_bbox []
        { l := 0, t := 0, r := 100, b := 50,
          coord_origin := CoordOrigin.TOPRIGHT } 200 100 200 100 =
      specPixelBBox 0 0 100 50 CoordOrigin.TOPRIGHT 200 100 200 100 ∧
    get_pixel_bbox []
        { l := (3 : ℤ), t := (4 : ℤ), r := (10 : ℤ), b := (20 : ℤ),
          coord_origin := CoordOrigin.TOPLEFT }
        ((100 : ℤ) : ℚ) ((200 : ℤ) : ℚ) 100 200 = (3, 4, 10, 20) := by
  have h := get_pixel_bbox_matches_spec_axis_rules 0 0 100 50
      CoordOrigin.TOPRIGHT 200 100 200 100 (by norm_num) (by norm_num)
      (by norm_num) (by norm_num)
  exact ⟨h.1, h.2 3 4 10 20 100 200 (by norm_num) (by norm_num)⟩

/-- C10: with a first provenance record that carries no coord_origin
attribute the box is interpreted with the BOTTOMLEFT default, and with no
provenance at all the own bbox of the item and its declared origin are used. -/
theorem get_pixel_bbox_defaults :
    (∀ (p : ProvenanceItem) (rest : List ProvenanceItem) (fb : BoundingBox)
        (pdf_w pdf_h : ℚ) (img_w img_h : ℤ), p.coord_origin = none →
      get_pixel_bbox (p :: rest) fb pdf_w pdf_h img_w img_h =
        toPixelBBox p.bbox.l p.bbox.t p.bbox.r p.bbox.b CoordOrigin.BOTTOMLEFT
          pdf_w pdf_h img_w img_h) ∧
    (∀ (fb : BoundingBox) (pdf_w pdf_h : ℚ) (img_w img_h : ℤ),
      get_pixel_bbox [] fb pdf_w pdf_h img_w img_h =
        toPixelBBox fb.l fb.t fb.r fb.b fb.coord_origin
          pdf_w pdf_h img_w img_h) := by
  constructor
  · intro p rest fb pw ph iw ih hp
    simp [get_pixel_bbox, hp]
  · intro fb pw ph iw ih
    rfl

/-- Concrete instance of the C10 theorem at a record without an origin
attribute. -/
theorem get_pixel_bbox_defaults_witness :
    get_pixel_bbox
        [{ page_no := 1,
           bbox := { l := 0, t := 0, r := 10, b := 10,
                     coord_origin := CoordOrigin.TOPLEFT },
           coord_origin := none }]
        { l := 0, t := 0, r := 1, b := 1, coord_origin := CoordOrigin.TOPLEFT }
        10 10 10 10 =
      toPixelBBox 0 0 10 10 CoordOrigin.BOTTOMLEFT 10 10 10 10 :=
  get_pixel_bbox_defaults.1
    { page_no := 1,
      bbox := { l := 0, t := 0, r := 10, b := 10,
                coord_origin := CoordOrigin.TOPLEFT },
      coord_origin := none }
    [] _ 10 10 10 10 rfl

/-- C7: update_cell_bbox writes back exactly the naive inverse TOPLEFT
mapping of the offset cell box shrunk inward by 4 document units on each
edge, always with origin TOPLEFT, and leaves the other cell fields
unchanged. -/
theorem update_cell_bbox_margin_spec (cell : TableCell) (sc : SuryaCell)
    (table_bbox : PixBox) (page_dim : ℤ × ℤ) (pdf_w pdf_h : ℚ) :
    (update_cell_bbox cell sc table_bbox page_dim pdf_w pdf_h).bbox =
      { l := (specNaiveCellDocBox sc.bbox (table_bbox.1, table_bbox.2.1)
                page_dim.1 page_dim.2 pdf_w pdf_h).1 + 4,
        t := (specNaiveCellDocBox sc.bbox (table_bbox.1, table_bbox.2.1)
                page_dim.1 page_dim.2 pdf_w pdf_h).2.1 + 4,
        r := (specNaiveCellDocBox sc.bbox (table_bbox.1, table_bbox.2.1)
                page_dim.1 page_dim.2 pdf_w pdf_h).2.2.1 - 4,
        b := (specNaiveCellDocBox sc.bbox (table_bbox.1, table_bbox.2.1)
                page_dim.1 page_dim.2 pdf_w pdf_h).2.2.2 - 4,
        coord_origin := CoordOrigin.TOPLEFT } ∧
    (update_cell_bbox cell sc table_bbox page_dim pdf_w pdf_h).bbox.coord_origin =
      CoordOrigin.TOPLEFT ∧
    (update_cell_bbox cell sc table_bbox page_dim pdf_w pdf_h).text =
      cell.text ∧
    (update_cell_bbox cell sc table_bbox page_dim pdf_w pdf_h).start_row_offset_idx =
      cell.start_row_offset_idx ∧
    (update_cell_bbox cell sc table_bbox page_dim pdf_w pdf_h).start_col_offset_idx =
      cell.start_col_offset_idx :=
  ⟨rfl, rfl, rfl, rfl, rfl⟩

/-- C3: with both enhancement flags disabled the whole-document operation is
the identity transform. -/
theorem process_conversion_result_identity_when_disabled
    (u : UnicodeData) (st : OCRState) (d : Document) :
    process_conversion_result u st
      { enable_formula_enhancement := false,
        enable_character_encoding_fix := false } d = d := rfl

/-- The overlap computation written as one guarded expression, definitionally
equal to calculate_overlap_ratio. -/
lemma overlap_ratio_eq (a1 a2 a3 a4 b1 b2 b3 b4 : ℤ) :
    calculate_overlap_ratio (a1, a2, a3, a4) (b1, b2, b3, b4) =
      if 0 < (a3 - a1) * (a4 - a2) then
        ((max 0 (min a3 b3 - max a1 b1) *
            max 0 (min a4 b4 - max a2 b2) : ℤ) : ℚ) /
          (((a3 - a1) * (a4 - a2) : ℤ) : ℚ)
      else 0 := rfl

/-- C2 (amended): the overlap ratio equals intersection area over the area of
the first box, is 0 for a zero-area first box and for disjoint boxes, equals
1 on a properly ordered box with positive area compared with itself, always
lies in the unit interval, and is asymmetric in general. -/
theorem calculate_overlap_ratio_spec (a1 a2 a3 a4 b1 b2 b3 b4 : ℤ) :
    calculate_overlap_ratio (a1, a2, a3, a4) (b1, b2, b3, b4) =
      ((max 0 (min a3 b3 - max a1 b1) *
          max 0 (min a4 b4 - max a2 b2) : ℤ) : ℚ) /
        (((a3 - a1) * (a4 - a2) : ℤ) : ℚ) ∧
    ((a3 - a1) * (a4 - a2) = 0 →
      calculate_overlap_ratio (a1, a2, a3, a4) (b1, b2, b3, b4) = 0) ∧
    (min a3 b3 ≤ max a1 b1 ∨ min a4 b4 ≤ max a2 b2 →
      calculate_overlap_ratio (a1, a2, a3, a4) (b1, b2, b3, b4) = 0) ∧
    (a1 < a3 → a2 < a4 →
      calculate_overlap_ratio (a1, a2, a3, a4) (a1, a2, a3, a4) = 1) ∧
    0 ≤ calculate_overlap_ratio (a1, a2, a3, a4) (b1, b2, b3, b4) ∧
    calculate_overlap_ratio (a1, a2, a3, a4) (b1, b2, b3, b4) ≤ 1 ∧
    (∃ A B : PixBox,
      calculate_overlap_ratio A B ≠ calculate_overlap_ratio B A) := by
  refine ⟨?_, ?_, ?_, ?_, ?_, ?_, ?_⟩
  · by_cases hpos : 0 < (a3 - a1) * (a4 - a2)
    · rw [overlap_ratio_eq, if_pos hpos]
    · rw [overlap_ratio_eq, if_neg hpos]
      rcases lt_or_eq_of_le (not_lt.mp hpos) with hlt | heq
      · have hz : max 0 (min a3 b3 - max a1 b1) *
            max 0 (min a4 b4 - max a2 b2) = 0 := by
          rcases mul_neg_iff.mp hlt with ⟨h1, h2⟩ | ⟨h1, h2⟩
          · have h0 : max 0 (min a4 b4 - max a2 b2) = 0 := by omega
            rw [h0, mul_zero]
          · have h0 : max 0 (min a3 b3 - max a1 b1) = 0 := by omega
            rw [h0, zero_mul]
        rw [hz]
        simp
      · rw [heq]
        simp
  · intro h
    rw [overlap_ratio_eq, if_neg (by omega)]
  · intro h
    by_cases hpos : 0 < (a3 - a1) * (a4 - a2)
    · rw [overlap_ratio_eq, if_pos hpos]
      have hz : max 0 (min a3 b3 - max a1 b1) *
          max 0 (min a4 b4 - max a2 b2) = 0 := by
        rcases h with h | h
        · have h0 : max 0 (min a3 b3 - max a1 b1) = 0 := by omega
          rw [h0, zero_mul]
        · have h0 : max 0 (min a4 b4 - max a2 b2) = 0 := by omega
          rw [h0, mul_zero]
      rw [hz]
      simp
    · rw [overlap_ratio_eq, if_neg hpos]
  · intro h1 h2
    rw [overlap_ratio_eq, if_pos (mul_pos (by omega) (by omega))]
    have e1 : max 0 (min a3 a3 - max a1 a1) = a3 - a1 := by omega
    have e2 : max 0 (min a4 a4 - max a2 a2) = a4 - a2 := by omega
    rw [e1, e2]
    apply div_self
    have hp : (0 : ℤ) < (a3 - a1) * (a4 - a2) := mul_pos (by omega) (by omega)
    exact_mod_cast ne_of_gt hp
  · by_cases hpos : 0 < (a3 - a1) * (a4 - a2)
    · rw [overlap_ratio_eq, if_pos hpos]
      apply div_nonneg
      · exact_mod_cast mul_nonneg (le_max_left 0 _) (le_max_left 0 _)
      · exact_mod_cast le_of_lt hpos
    · rw [overlap_ratio_eq, if_neg hpos]
  · by_cases hpos : 0 < (a3 - a1) * (a4 - a2)
    · rw [overlap_ratio_eq, if_pos hpos]
      rw [div_le_one (by exact_mod_cast hpos)]
      have hle : max 0 (min a3 b3 - max a1 b1) *
          max 0 (min a4 b4 - max a2 b2) ≤ (a3 - a1) * (a4 - a2) := by
        rcases mul_pos_iff.mp hpos with ⟨h1, h2⟩ | ⟨h1, h2⟩
        · have w1 : max 0 (min a3 b3 - max a1 b1) ≤ a3 - a1 := by omega
          have w2 : max 0 (min a4 b4 - max a2 b2) ≤ a4 - a2 := by omega
          exact mul_le_mul w1 w2 (le_max_left 0 _) (by omega)
        · have h0 : max 0 (min a3 b3 - max a1 b1) = 0 := by omega
          rw [h0, zero_mul]
          exact le_of_lt hpos
      exact_mod_cast hle
    · rw [overlap_ratio_eq, if_neg hpos]
      norm_num
  · refine ⟨(0, 0, 1, 1), (0, 0, 2, 2), ?_⟩
    norm_num [ calculate_overlap_ratio]

/-- Counterexample to C2 as frozen: the box (1, 1, 0, 0) has positive area by
the area formula of the claim itself, yet its overlap ratio with itself is not 1 (the
code computes an empty intersection and returns 0). -/
theorem calculate_overlap_ratio_inverted_self_counterexample :
    0 < ((0 : ℤ) - 1) * ((0 : ℤ) - 1) ∧
    calculate_overlap_ratio ((1 : ℤ), (1 : ℤ), (0 : ℤ), (0 : ℤ))
        (1, 1, 0, 0) ≠ 1 := by
  constructor
  · norm_num
  · norm_num [ calculate_overlap_ratio]

/-- Concrete instance of the C2 theorem: a properly ordered box compared with
itself has ratio 1. -/
theorem calculate_overlap_ratio_spec_witness :
    calculate_overlap_ratio ((0 : ℤ), (0 : ℤ), (2 : ℤ), (2 : ℤ))
        (0, 0, 2, 2) = 1 :=
  (calculate_overlap_ratio_spec 0 0 2 2 0 0 1 1).2.2.2.1
    (by norm_num) (by norm_num)

/-- The accepted-script check holds exactly when every character above 7-bit
ASCII has a resolvable name containing one of the accepted script tokens. -/
lemma valid_non_ascii_iff (u : UnicodeData) (text : String) :
    is_valid_non_ascii u text = true ↔
      ∀ c ∈ text.data, 127 < c.toNat →
        (u.hasName c = true ∧ (u.nameARABIC c = true ∨ u.nameLATIN c = true ∨
          u.nameMATHEMATICAL c = true)) := by
  unfold is_valid_non_ascii
  rw [List.all_eq_true]
  constructor
  · intro h c hc hgt
    have := h c hc
    rw [if_pos hgt] at this
    simpa [Bool.and_eq_true, Bool.or_eq_true, or_assoc] using this
  · intro h c hc
    by_cases hgt : 127 < c.toNat
    · rw [if_pos hgt]
      simpa [Bool.and_eq_true, Bool.or_eq_true, or_assoc] using h c hc hgt
    · rw [if_neg hgt]

/-- C5: with the formula check enabled the formula flag fires exactly when
the text has at least one digit and at least one alphabetic character whose
Unicode name contains LATIN; the sample formula-like string fires it, the
purely Arabic sample does not, and blank text never does. -/
theorem formula_flag_spec (u : UnicodeData) (text : String) (checkEnc : Bool)
    (hdisj : ∀ c ∈ text.data, u.isSpace c = true → u.isDigit c = false) :
    ((needs_ocr_enhancement u text true checkEnc).formula = true ↔
      ((∃ c ∈ text.data, u.isDigit c = true) ∧
       (∃ c ∈ text.data, u.isAlpha c = true ∧ u.nameLATIN c = true))) ∧
    (needs_ocr_enhancement pyU "y=x2" true false).formula = true ∧
    (needs_ocr_enhancement pyU "نص عربي" true false).formula = false ∧
    (∀ s : String, (∀ c ∈ s.data, u.isSpace c = true) →
      (needs_ocr_enhancement u s true checkEnc).formula = false) := by
  refine ⟨?_, by decide, by decide, ?_⟩
  · unfold needs_ocr_enhancement
    by_cases hb : text = "" ∨ text.data.all u.isSpace = true
    · rw [if_pos hb]
      constructor
      · intro hcon
        exact absurd hcon (by simp)
      · rintro ⟨⟨c, hc, hd⟩, _⟩
        rcases hb with hb | hb
        · subst hb
          simp at hc
        · have hs := List.all_eq_true.mp hb c hc
          have := hdisj c hc hs
          rw [this] at hd
          exact absurd hd (by simp)
    · rw [if_neg hb]
      show (true && needs_formula_enhancement u text) = true ↔ _
      rw [Bool.true_and]
      unfold needs_formula_enhancement
      simp [List.any_eq_true, Bool.and_eq_true]
  · intro s hs
    unfold needs_ocr_enhancement
    rw [if_pos (Or.inr (List.all_eq_true.mpr hs))]

/-- C6 (amended): for non-blank text with the encoding check enabled, the
encoding flag fires exactly when a fixed replacement or control symbol occurs
or some character above 7-bit ASCII fails the accepted-script name check;
text free of the fixed symbols that is plain ASCII, or whose non-ASCII
characters all belong to the accepted scripts, never fires it. -/
theorem encoding_flag_spec (u : UnicodeData) (text : String) (cf : Bool)
    (hnb : ∃ c ∈ text.data, u.isSpace c = false) :
    ((needs_ocr_enhancement u text cf true).encoding = true ↔
      (error_chars.any (fun e => text.data.contains e) = true ∨
        ∃ c ∈ text.data, 127 < c.toNat ∧
          ¬(u.hasName c = true ∧ (u.nameARABIC c = true ∨ u.nameLATIN c = true ∨
            u.nameMATHEMATICAL c = true)))) ∧
    ((∀ c ∈ text.data, c.toNat ≤ 127) →
      error_chars.any (fun e => text.data.contains e) = false →
      (needs_ocr_enhancement u text cf true).encoding = false) ∧
    ((∀ c ∈ text.data, 127 < c.toNat →
        (u.hasName c = true ∧ (u.nameARABIC c = true ∨ u.nameLATIN c = true ∨
          u.nameMATHEMATICAL c = true))) →
      error_chars.any (fun e => text.data.contains e) = false →
      (needs_ocr_enhancement u text cf true).encoding = false) := by
  obtain ⟨c0, hc0, hc0s⟩ := hnb
  have hb : ¬(text = "" ∨ text.data.all u.isSpace = true) := by
    rintro (h | h)
    · subst h
      simp at hc0
    · have := List.all_eq_true.mp h c0 hc0
      rw [hc0s] at this
      exact absurd this (by simp)
  unfold needs_ocr_enhancement
  rw [if_neg hb]
  have henc : ∀ b : Bool,
      ({ encoding := true && has_encoding_issues u text,
         formula := b } : AnalyzerResult).encoding = has_encoding_issues u text := by
    intro b
    rw [Bool.true_and]
  refine ⟨?_, ?_, ?_⟩
  · rw [henc]
    unfold has_encoding_issues
    constructor
    · intro h
      simp only [Bool.or_eq_true] at h
      rcases h with h | h
      · exact Or.inl h
      · simp only [Bool.and_eq_true] at h
        obtain ⟨hany, hnv⟩ := h
        right
        by_contra hno
        push_neg at hno
        rw [(valid_non_ascii_iff u text).mpr hno] at hnv
        exact absurd hnv (by simp)
    · intro h
      simp only [Bool.or_eq_true]
      rcases h with h | ⟨c, hc, hgt, hbad⟩
      · exact Or.inl h
      · refine Or.inr ?_
        simp only [Bool.and_eq_true]
        refine ⟨?_, ?_⟩
        · exact List.any_eq_true.mpr ⟨c, hc, by simpa using hgt⟩
        · have hvf : is_valid_non_ascii u text = false := by
            by_contra hvt
            have : is_valid_non_ascii u text = true := by
              revert hvt
              cases is_valid_non_ascii u text <;> simp
            exact hbad (((valid_non_ascii_iff u text).mp this) c hc hgt)
          rw [hvf]
          rfl
  · intro hascii herr
    rw [henc]
    unfold has_encoding_issues
    have hany : text.data.any (fun c => decide (127 < c.toNat)) = false := by
      by_contra hany
      have : text.data.any (fun c => decide (127 < c.toNat)) = true := by
        revert hany
        cases text.data.any (fun c => decide (127 < c.toNat)) <;> simp
      obtain ⟨c, hc, hgt⟩ := List.any_eq_true.mp this
      have := hascii c hc
      simp at hgt
      omega
    rw [herr, hany]
    rfl
  · intro hall herr
    rw [henc]
    unfold has_encoding_issues
    rw [herr, (valid_non_ascii_iff u text).mpr hall]
    simp

/-- Counterexample to C6 as frozen: the string of the letter a followed by
NUL is plain ASCII, yet it triggers the encoding flag because NUL is one of
the fixed control symbols. -/
theorem encoding_flag_ascii_counterexample :
    (∀ c ∈ ("a\x00" : String).data, c.toNat ≤ 127) ∧
    (needs_ocr_enhancement pyU "a\x00" false true).encoding = true := by
  constructor
  · decide
  · decide

/-- Concrete instance of the C6 theorem: clean ASCII text does not fire the
encoding flag. -/
theorem encoding_flag_spec_witness :
    (needs_ocr_enhancement pyU "abc" false true).encoding = false :=
  (encoding_flag_spec pyU "abc" false ⟨'a', by decide, by decide⟩).2.1
    (by decide) (by decide)

/-- Concrete instance of the C5 theorem at the formula-like sample string. -/
theorem formula_flag_spec_witness :
    (needs_ocr_enhancement pyU "y=x2" true false).formula = true :=
  (formula_flag_spec pyU "y=x2" false (by decide)).2.1

/-- With models unavailable, region recognition returns the original text. -/
lemma extract_text_noop (st : OCRState) (h : st.models_loaded = false)
    (image : PageImage) (bbox : PixBox) (old_text : String) (mm : Bool) :
    extract_text_from_region st image bbox old_text mm = old_text := by
  unfold extract_text_from_region
  rw [if_pos h]

/-- With models unavailable, table-structure enhancement is a no-op. -/
lemma enhance_table_structure_noop (st : OCRState)
    (h : st.models_loaded = false) (dim : PageImage) (table : TableItem)
    (tb : PixBox) (pw ph : ℚ) :
    enhance_table_structure st dim table tb pw ph = table := by
  unfold enhance_table_structure
  rw [if_pos h]

/-- With models unavailable, the per-cell text step leaves the cell alone. -/
lemma processOneCell_noop (u : UnicodeData) (st : OCRState)
    (en : DocumentEnhancer) (img : PageImage) (pw ph : ℚ)
    (h : st.models_loaded = false) (cell : TableCell) :
    processOneCell u st en img pw ph cell = cell := by
  simp [processOneCell, extract_text_noop st h]

/-- With models unavailable, the per-table body leaves the table alone. -/
lemma processOneTable_noop (u : UnicodeData) (st : OCRState)
    (en : DocumentEnhancer) (img : PageImage) (pw ph : ℚ)
    (h : st.models_loaded = false) (table : TableItem) :
    processOneTable u st en img pw ph table = table := by
  simp only [processOneTable]
  rw [enhance_table_structure_noop st h]
  have hm : table.data.table_cells.map (processOneCell u st en img pw ph) =
      table.data.table_cells := by
    induction table.data.table_cells with
    | nil => rfl
    | cons c cs ih => simp [processOneCell_noop u st en img pw ph h, ih]
  rw [hm]

/-- With models unavailable, the table pass leaves the document alone. -/
lemma process_tables_noop (u : UnicodeData) (st : OCRState)
    (en : DocumentEnhancer) (pn : ℕ) (img : PageImage) (pw ph : ℚ)
    (h : st.models_loaded = false) (d : Document) :
    process_tables u st en pn img pw ph d = d := by
  unfold process_tables
  have hm : ∀ ts : List TableItem, (ts.map fun table =>
      match table.prov with
      | [] => table
      | p :: _ =>
          if p.page_no = pn then processOneTable u st en img pw ph table
          else table) = ts := by
    intro ts
    induction ts with
    | nil => rfl
    | cons tb tbs ih =>
        simp only [List.map_cons, ih]
        congr 1
        cases htb : tb.prov with
        | nil => rfl
        | cons p rest =>
            by_cases hpg : p.page_no = pn
            · simp [hpg, processOneTable_noop u st en img pw ph h]
            · simp [hpg]
  rw [hm]

/-- With models unavailable, the per-text-element body is the identity. -/
lemma processOneText_noop (u : UnicodeData) (st : OCRState)
    (en : DocumentEnhancer) (pn : ℕ) (img : PageImage) (pw ph : ℚ)
    (boxes : List PixBox) (h : st.models_loaded = false) (tx : TextItem) :
    processOneText u st en pn img pw ph boxes tx = tx := by
  unfold processOneText
  cases htx : tx.prov with
  | nil => rfl
  | cons p rest => simp [extract_text_noop st h]

/-- With models unavailable, the text pass leaves the document alone. -/
lemma process_text_elements_noop (u : UnicodeData) (st : OCRState)
    (en : DocumentEnhancer) (pn : ℕ) (img : PageImage) (pw ph : ℚ)
    (boxes : List PixBox) (h : st.models_loaded = false) (d : Document) :
    process_text_elements u st en pn img pw ph boxes d = d := by
  unfold process_text_elements
  have hm : d.texts.map (processOneText u st en pn img pw ph boxes) =
      d.texts := by
    induction d.texts with
    | nil => rfl
    | cons tx txs ih =>
        simp [processOneText_noop u st en pn img pw ph boxes h, ih]
  rw [hm]

/-- With models unavailable, processing one page leaves the document alone. -/
lemma process_page_elements_noop (u : UnicodeData) (st : OCRState)
    (en : DocumentEnhancer) (pn : ℕ) (page : Page) (img : PageImage)
    (h : st.models_loaded = false) (d : Document) :
    process_page_elements u st en pn page img d = d := by
  simp only [process_page_elements]
  rw [process_tables_noop u st en pn img _ _ h,
      process_text_elements_noop u st en pn img _ _ _ h]

/-- C4: when model loading never succeeds, region recognition returns the
original text, table-structure enhancement changes nothing, and the whole
orchestrator with both flags enabled returns every document unchanged. -/
theorem enhancement_noop_when_models_unavailable (st : OCRState)
    (h : st.models_loaded = false) :
    (∀ (image : PageImage) (bbox : PixBox) (old_text : String) (mm : Bool),
      extract_text_from_region st image bbox old_text mm = old_text) ∧
    (∀ (dim : PageImage) (table : TableItem) (tb : PixBox) (pw ph : ℚ),
      enhance_table_structure st dim table tb pw ph = table) ∧
    (∀ (u : UnicodeData) (d : Document),
      process_conversion_result u st
        { enable_formula_enhancement := true,
          enable_character_encoding_fix := true } d = d) := by
  refine ⟨extract_text_noop st h, enhance_table_structure_noop st h, ?_⟩
  intro u d
  unfold process_conversion_result
  rw [if_neg (by simp)]
  have hf : ∀ (pages : List (ℕ × Page)) (acc : Document),
      pages.foldl (fun acc pp =>
        match pp.2.image with
        | none => acc
        | some img =>
            process_page_elements u st
              { enable_formula_enhancement := true,
                enable_character_encoding_fix := true } pp.1 pp.2 img acc)
        acc = acc := by
    intro pages
    induction pages with
    | nil => intro acc; rfl
    | cons pg pgs ih =>
        intro acc
        rw [List.foldl_cons]
        cases hi : pg.2.image with
        | none => simp only [hi]; exact ih acc
        | some img =>
            simp only [hi]
            rw [process_page_elements_noop u st _ pg.1 pg.2 img h acc]
            exact ih acc
  exact hf d.pages d

/-- A small concrete document with one page, one text element, one table with
a cell, and one picture, used by concrete witnesses. -/
def sampleDoc : Document where
  pages := [(1, { size := { width := 100, height := 100 },
                  image := some { width := 100, height := 100 } })]
  texts := [{ prov := [{ page_no := 1,
                         bbox := { l := 10, t := 10, r := 40, b := 20,
                                   coord_origin := CoordOrigin.TOPLEFT },
                         coord_origin := some CoordOrigin.TOPLEFT }],
              bbox := { l := 10, t := 10, r := 40, b := 20,
                        coord_origin := CoordOrigin.TOPLEFT },
              text := "y=x2" }]
  tables := [{ prov := [{ page_no := 1,
                          bbox := { l := 50, t := 50, r := 90, b := 90,
                                    coord_origin := CoordOrigin.TOPLEFT },
                          coord_origin := some CoordOrigin.TOPLEFT }],
               bbox := { l := 50, t := 50, r := 90, b := 90,
                         coord_origin := CoordOrigin.TOPLEFT },
               data := { table_cells :=
                 [{ start_row_offset_idx := 0, start_col_offset_idx := 0,
                    text := "v1", bbox := { l := 52, t := 52, r := 60, b := 60,
                                            coord_origin := CoordOrigin.TOPLEFT } }] } }]
  pictures := [{ prov := [{ page_no := 1,
                            bbox := { l := 0, t := 0, r := 50, b := 50,
                                      coord_origin := CoordOrigin.TOPLEFT },
                            coord_origin := some CoordOrigin.TOPLEFT }],
                 bbox := { l := 0, t := 0, r := 50, b := 50,
                           coord_origin := CoordOrigin.TOPLEFT } }]
  form_items := []
  key_value_items := []

/-- Concrete instance of the C4 theorem on the stub adapter and the sample
document. -/
theorem enhancement_noop_when_models_unavailable_witness :
    extract_text_from_region stubOCR { width := 100, height := 100 }
        (0, 0, 10, 10) "abc" false = "abc" ∧
    process_conversion_result pyU stubOCR
      { enable_formula_enhancement := true,
        enable_character_encoding_fix := true } sampleDoc = sampleDoc :=
  ⟨(enhancement_noop_when_models_unavailable stubOCR rfl).1
      { width := 100, height := 100 } (0, 0, 10, 10) "abc" false,
   (enhancement_noop_when_models_unavailable stubOCR rfl).2.2 pyU sampleDoc⟩

/-- C8: with models loaded, region recognition keeps exactly the predicted
lines of the first result whose confidence is strictly above one half, joins
their texts with single spaces and strips the result, and falls back to the
original text when nothing survives. -/
theorem extract_text_confidence_filter (st : OCRState) (h : st.models_loaded = true)
    (image : PageImage) (bbox : PixBox) (old_text : String)
    (math_mode : Bool) :
    (extract_text_from_region st image bbox old_text math_mode =
      (if pyStrip (String.intercalate " " (((firstPredictionLines (st.recognize
            { img := image, crop := cropRegion image bbox,
              math_mode := math_mode })).filter
            (fun line => decide ((1 : ℚ) / 2 < line.confidence))).map
            TextLine.text)) = "" then old_text
       else pyStrip (String.intercalate " " (((firstPredictionLines (st.recognize
            { img := image, crop := cropRegion image bbox,
              math_mode := math_mode })).filter
            (fun line => decide ((1 : ℚ) / 2 < line.confidence))).map
            TextLine.text)))) ∧
    (∀ line : TextLine,
      line ∈ (firstPredictionLines (st.recognize
          { img := image, crop := cropRegion image bbox,
            math_mode := math_mode })).filter
          (fun line => decide ((1 : ℚ) / 2 < line.confidence)) ↔
        (line ∈ firstPredictionLines (st.recognize
            { img := image, crop := cropRegion image bbox,
              math_mode := math_mode }) ∧
          (1 : ℚ) / 2 < line.confidence)) ∧
    ((firstPredictionLines (st.recognize
        { img := image, crop := cropRegion image bbox,
          math_mode := math_mode })).filter
        (fun line => decide ((1 : ℚ) / 2 < line.confidence)) = [] →
      extract_text_from_region st image bbox old_text math_mode =
        old_text) := by
  refine ⟨?_, ?_, ?_⟩
  · simp only [extract_text_from_region, h]
    norm_num
  · intro line
    constructor
    · intro hl
      have hm := List.mem_filter.mp hl
      exact ⟨hm.1, of_decide_eq_true hm.2⟩
    · rintro ⟨h1, h2⟩
      exact List.mem_filter.mpr ⟨h1, decide_eq_true h2⟩
  · intro hk
    simp only [extract_text_from_region, h]
    norm_num
    rw [hk]
    intro hne
    exact absurd rfl hne

/-- A loaded adapter whose recognition always returns one high-confidence and
one low-confidence line, used by the concrete witness. -/
def stRecSample : OCRState where
  models_loaded := true
  recognize := fun _ => [{ text_lines := [{ text := "hi", confidence := 9 / 10 },
                                          { text := "lo", confidence := 1 / 10 }] }]
  table_rec := fun _ => []

/-- Concrete instance of the C8 theorem: only the high-confidence line
survives. -/
theorem extract_text_confidence_filter_witness :
    extract_text_from_region stRecSample { width := 100, height := 100 }
      (0, 0, 10, 10) "old" false = "hi" := by
  have h := (extract_text_confidence_filter stRecSample rfl { width := 100, height := 100 }
      (0, 0, 10, 10) "old" false).1
  rw [h]
  norm_num [stRecSample, firstPredictionLines, List.filter]
  decide

/-- The per-item occlusion filter yields a box exactly for items whose first
provenance record targets the page. -/
lemma nonTextBoxOf_eq_some (pn : ℕ) (pdf_w pdf_h : ℚ) (img_w img_h : ℤ)
    (prov : List ProvenanceItem) (bbox : BoundingBox) (ob : PixBox) :
    nonTextBoxOf pn pdf_w pdf_h img_w img_h prov bbox = some ob ↔
      ∃ p rest, prov = p :: rest ∧ p.page_no = pn ∧
        ob = get_pixel_bbox prov bbox pdf_w pdf_h img_w img_h := by
  cases prov with
  | nil =>
      constructor
      · intro hcon
        exact absurd hcon (by simp [nonTextBoxOf])
      · rintro ⟨p, rest, hcon, _, _⟩
        exact absurd hcon (by simp)
  | cons p rest =>
      simp only [nonTextBoxOf]
      by_cases hpg : p.page_no = pn
      · rw [if_pos hpg]
        constructor
        · intro hs
          exact ⟨p, rest, rfl, hpg, (Option.some_inj.mp hs).symm⟩
        · rintro ⟨p1, r1, heq, hpg1, hob⟩
          rw [hob]
      · rw [if_neg hpg]
        constructor
        · intro hcon
          exact absurd hcon (by simp)
        · rintro ⟨p1, r1, heq, hpg1, hob⟩
          injection heq with h1 h2
          subst h1
          exact absurd hpg1 hpg

/-- Membership in the occlusion list: exactly the pixel boxes of pictures,
form items, key-value items, and tables whose first provenance record targets
the page. -/
lemma mem_collect_non_text_bboxes (pn : ℕ) (pdf_w pdf_h : ℚ)
    (img_w img_h : ℤ) (d : Document) (ob : PixBox) :
    ob ∈ collect_non_text_bboxes pn pdf_w pdf_h img_w img_h d ↔
      ∃ geom : List ProvenanceItem × BoundingBox,
        (geom ∈ d.pictures.map (fun it => (it.prov, it.bbox)) ∨
         geom ∈ d.form_items.map (fun it => (it.prov, it.bbox)) ∨
         geom ∈ d.key_value_items.map (fun it => (it.prov, it.bbox)) ∨
         geom ∈ d.tables.map (fun it => (it.prov, it.bbox))) ∧
        ∃ p rest, geom.1 = p :: rest ∧ p.page_no = pn ∧
          ob = get_pixel_bbox geom.1 geom.2 pdf_w pdf_h img_w img_h := by
  unfold collect_non_text_bboxes
  simp only [List.mem_append, List.mem_filterMap, List.mem_map]
  constructor
  · intro hmem
    rcases hmem with ((h | h) | h) | h
    all_goals obtain ⟨it, hit, hsome⟩ := h
    · obtain ⟨p, rest, heq, hpg, hob⟩ :=
        (nonTextBoxOf_eq_some pn pdf_w pdf_h img_w img_h it.prov it.bbox ob).mp
          hsome
      exact ⟨(it.prov, it.bbox), Or.inl ⟨it, hit, rfl⟩, p, rest, heq, hpg, hob⟩
    · obtain ⟨p, rest, heq, hpg, hob⟩ :=
        (nonTextBoxOf_eq_some pn pdf_w pdf_h img_w img_h it.prov it.bbox ob).mp
          hsome
      exact ⟨(it.prov, it.bbox), Or.inr (Or.inl ⟨it, hit, rfl⟩), p, rest, heq,
        hpg, hob⟩
    · obtain ⟨p, rest, heq, hpg, hob⟩ :=
        (nonTextBoxOf_eq_some pn pdf_w pdf_h img_w img_h it.prov it.bbox ob).mp
          hsome
      exact ⟨(it.prov, it.bbox), Or.inr (Or.inr (Or.inl ⟨it, hit, rfl⟩)), p,
        rest, heq, hpg, hob⟩
    · obtain ⟨p, rest, heq, hpg, hob⟩ :=
        (nonTextBoxOf_eq_some pn pdf_w pdf_h img_w img_h it.prov it.bbox ob).mp
          hsome
      exact ⟨(it.prov, it.bbox), Or.inr (Or.inr (Or.inr ⟨it, hit, rfl⟩)), p,
        rest, heq, hpg, hob⟩
  · rintro ⟨geom, hsrc, p, rest, heq, hpg, hob⟩
    rcases hsrc with h | h | h | h
    all_goals obtain ⟨it, hit, hpair⟩ := h
    · refine Or.inl (Or.inl (Or.inl ⟨it, hit, ?_⟩))
      rw [← hpair] at heq hob
      exact (nonTextBoxOf_eq_some pn pdf_w pdf_h img_w img_h it.prov it.bbox
        ob).mpr ⟨p, rest, heq, hpg, hob⟩
    · refine Or.inl (Or.inl (Or.inr ⟨it, hit, ?_⟩))
      rw [← hpair] at heq hob
      exact (nonTextBoxOf_eq_some pn pdf_w pdf_h img_w img_h it.prov it.bbox
        ob).mpr ⟨p, rest, heq, hpg, hob⟩
    · refine Or.inl (Or.inr ⟨it, hit, ?_⟩)
      rw [← hpair] at heq hob
      exact (nonTextBoxOf_eq_some pn pdf_w pdf_h img_w img_h it.prov it.bbox
        ob).mpr ⟨p, rest, heq, hpg, hob⟩
    · refine Or.inr ⟨it, hit, ?_⟩
      rw [← hpair] at heq hob
      exact (nonTextBoxOf_eq_some pn pdf_w pdf_h img_w img_h it.prov it.bbox
        ob).mpr ⟨p, rest, heq, hpg, hob⟩

/-- C9: the text pass maps the per-element step over every free text element;
the occlusion list consists exactly of the pixel boxes of the non-text
elements whose first provenance record targets the page; and for an element
on the page the step skips it unchanged when its pixel box overlaps any
occlusion box by more than 0.05, otherwise re-recognizes exactly when the
analyzer triggers and replaces the text only by a non-empty different
result. -/
theorem process_text_elements_spec (u : UnicodeData) (st : OCRState) (en : DocumentEnhancer)
    (pn : ℕ) (img : PageImage) (pdf_w pdf_h : ℚ) (d : Document) :
    ((process_text_elements u st en pn img pdf_w pdf_h
        (collect_non_text_bboxes pn pdf_w pdf_h img.width img.height d)
        d).texts =
      d.texts.map (processOneText u st en pn img pdf_w pdf_h
        (collect_non_text_bboxes pn pdf_w pdf_h img.width img.height d))) ∧
    (∀ ob : PixBox,
      ob ∈ collect_non_text_bboxes pn pdf_w pdf_h img.width img.height d ↔
        ∃ geom : List ProvenanceItem × BoundingBox,
          (geom ∈ d.pictures.map (fun it => (it.prov, it.bbox)) ∨
           geom ∈ d.form_items.map (fun it => (it.prov, it.bbox)) ∨
           geom ∈ d.key_value_items.map (fun it => (it.prov, it.bbox)) ∨
           geom ∈ d.tables.map (fun it => (it.prov, it.bbox))) ∧
          ∃ p rest, geom.1 = p :: rest ∧ p.page_no = pn ∧
            ob = get_pixel_bbox geom.1 geom.2 pdf_w pdf_h img.width
              img.height) ∧
    (∀ (tx : TextItem) (p : ProvenanceItem) (rest : List ProvenanceItem)
        (boxes : List PixBox), tx.prov = p :: rest → p.page_no = pn →
      ((∃ ob ∈ boxes, (1 : ℚ) / 20 < calculate_overlap_ratio
            (get_pixel_bbox tx.prov tx.bbox pdf_w pdf_h img.width img.height)
            ob) →
        processOneText u st en pn img pdf_w pdf_h boxes tx = tx) ∧
      (¬(∃ ob ∈ boxes, (1 : ℚ) / 20 < calculate_overlap_ratio
            (get_pixel_bbox tx.prov tx.bbox pdf_w pdf_h img.width img.height)
            ob) →
        (((should_enhance_text u en tx.text).encoding = false ∧
            (should_enhance_text u en tx.text).formula = false) →
          processOneText u st en pn img pdf_w pdf_h boxes tx = tx) ∧
        (((should_enhance_text u en tx.text).encoding = true ∨
            (should_enhance_text u en tx.text).formula = true) →
          (extract_text_from_region st img
              (get_pixel_bbox tx.prov tx.bbox pdf_w pdf_h img.width
                img.height) tx.text
              (should_enhance_text u en tx.text).formula ≠ "" →
            extract_text_from_region st img
              (get_pixel_bbox tx.prov tx.bbox pdf_w pdf_h img.width
                img.height) tx.text
              (should_enhance_text u en tx.text).formula ≠ tx.text →
            processOneText u st en pn img pdf_w pdf_h boxes tx =
              { tx with text := (extract_text_from_region st img
                  (get_pixel_bbox tx.prov tx.bbox pdf_w pdf_h img.width
                    img.height) tx.text
                  (should_enhance_text u en tx.text).formula) }) ∧
          ((extract_text_from_region st img
              (get_pixel_bbox tx.prov tx.bbox pdf_w pdf_h img.width
                img.height) tx.text
              (should_enhance_text u en tx.text).formula = "" ∨
            extract_text_from_region st img
              (get_pixel_bbox tx.prov tx.bbox pdf_w pdf_h img.width
                img.height) tx.text
              (should_enhance_text u en tx.text).formula = tx.text) →
            processOneText u st en pn img pdf_w pdf_h boxes tx = tx)))) := by
  refine ⟨rfl,
    mem_collect_non_text_bboxes pn pdf_w pdf_h img.width img.height d, ?_⟩
  rintro ⟨tprov, tbbox, ttext⟩ p rest boxes htx hpg
  simp only at htx
  subst htx
  refine ⟨?_, ?_⟩
  · rintro ⟨ob, hob, hlt⟩
    have hany : boxes.any (fun other => decide ((1 : ℚ) / 20 <
        calculate_overlap_ratio (get_pixel_bbox (p :: rest) tbbox pdf_w pdf_h
          img.width img.height) other)) = true :=
      List.any_eq_true.mpr ⟨ob, hob, decide_eq_true hlt⟩
    simp only [processOneText]
    rw [if_pos hpg, if_pos hany]
  · intro hnov
    have hany : boxes.any (fun other => decide ((1 : ℚ) / 20 <
        calculate_overlap_ratio (get_pixel_bbox (p :: rest) tbbox pdf_w pdf_h
          img.width img.height) other)) = false := by
      cases hq : boxes.any (fun other => decide ((1 : ℚ) / 20 <
          calculate_overlap_ratio (get_pixel_bbox (p :: rest) tbbox pdf_w
            pdf_h img.width img.height) other)) with
      | false => rfl
      | true =>
          obtain ⟨ob, hob, hdec⟩ := List.any_eq_true.mp hq
          exact absurd ⟨ob, hob, of_decide_eq_true hdec⟩ hnov
    refine ⟨?_, ?_⟩
    · rintro ⟨he, hf⟩
      simp only [processOneText]
      rw [if_pos hpg, if_neg (by simp only [hany]; exact Bool.false_ne_true), if_neg (by simp [he, hf])]
    · intro hres
      have hcond : ((should_enhance_text u en ttext).encoding ||
          (should_enhance_text u en ttext).formula) = true := by
        rcases hres with h | h <;> simp [h]
      constructor
      · intro hne hdiff
        simp only [processOneText]
        rw [if_pos hpg, if_neg (by simp only [hany]; exact Bool.false_ne_true), if_pos hcond,
          if_pos ⟨hne, hdiff⟩]
      · intro hcase
        simp only [processOneText]
        rw [if_pos hpg, if_neg (by simp only [hany]; exact Bool.false_ne_true), if_pos hcond]
        rw [if_neg ?hfalse]
        case hfalse =>
          rcases hcase with h | h
          · intro hcon
            exact absurd h hcon.1
          · intro hcon
            exact absurd h hcon.2

/-- Concrete instance of the C9 theorem: the sample text element overlaps the
sample picture and is skipped unchanged. -/
theorem process_text_elements_spec_witness :
    processOneText pyU stubOCR
      { enable_formula_enhancement := true,
        enable_character_encoding_fix := true }
      1 { width := 100, height := 100 } 100 100
      (collect_non_text_bboxes 1 100 100 100 100 sampleDoc)
      { prov := [{ page_no := 1,
                   bbox := { l := 10, t := 10, r := 40, b := 20,
                             coord_origin := CoordOrigin.TOPLEFT },
                   coord_origin := some CoordOrigin.TOPLEFT }],
        bbox := { l := 10, t := 10, r := 40, b := 20,
                  coord_origin := CoordOrigin.TOPLEFT },
        text := "y=x2" } =
      { prov := [{ page_no := 1,
                   bbox := { l := 10, t := 10, r := 40, b := 20,
                             coord_origin := CoordOrigin.TOPLEFT },
                   coord_origin := some CoordOrigin.TOPLEFT }],
        bbox := { l := 10, t := 10, r := 40, b := 20,
                  coord_origin := CoordOrigin.TOPLEFT },
        text := "y=x2" } := by
  have h := (process_text_elements_spec pyU stubOCR
      { enable_formula_enhancement := true,
        enable_character_encoding_fix := true }
      1 { width := 100, height := 100 } 100 100 sampleDoc).2.2
      { prov := [{ page_no := 1,
                   bbox := { l := 10, t := 10, r := 40, b := 20,
                             coord_origin := CoordOrigin.TOPLEFT },
                   coord_origin := some CoordOrigin.TOPLEFT }],
        bbox := { l := 10, t := 10, r := 40, b := 20,
                  coord_origin := CoordOrigin.TOPLEFT },
        text := "y=x2" }
      { page_no := 1,
        bbox := { l := 10, t := 10, r := 40, b := 20,
                  coord_origin := CoordOrigin.TOPLEFT },
        coord_origin := some CoordOrigin.TOPLEFT } []
      (collect_non_text_bboxes 1 100 100 100 100 sampleDoc) rfl rfl
  apply h.1
  refine ⟨(0, 0, 50, 50), ?_, ?_⟩
  · norm_num [collect_non_text_bboxes, nonTextBoxOf, sampleDoc,
      List.filterMap, get_pixel_bbox, toPixelBBox, pyInt]
  · norm_num [get_pixel_bbox, toPixelBBox, pyInt, calculate_overlap_ratio]
